import Mathlib

/-!
Verification of `landscape/lib/amp.py`: an object-oriented remote method-call
transport over AMP.  The Python source is shallowly embedded below: the pure
dispatch logic of the server protocol becomes a Lean function, the stateful
client protocol and the `RemoteObject` proxy become explicit state-passing
functions, and the reactor (timers, deferreds) is modelled by fresh-handle
parameters and explicit action lists.
-/

/-- A Python runtime type tag: either a base type or a strict subclass of
another type.  Python's `type(v) in table` tests the exact type object, so the
embedding keeps the subclass structure explicit. -/
inductive PyType where
  | base (name : String)
  | sub (name : String) (parent : PyType)
deriving DecidableEq, Repr

/-- A Python value, abstracted to its runtime type tag together with an opaque
payload distinguishing values of the same type. -/
structure PyVal where
  ty : PyType
  payload : Nat
deriving DecidableEq, Repr

/-- Modelled from the spec: `dumps_table` lives in `landscape/lib/bpickle`,
which is not part of the embedded file; the spec describes the codec as
supporting "a bounded set of value shapes" keyed by exact type (the usual
bpickle base types). -/
def dumps_table : List PyType :=
  [PyType.base "bool", PyType.base "int", PyType.base "long",
   PyType.base "float", PyType.base "str", PyType.base "unicode",
   PyType.base "list", PyType.base "tuple", PyType.base "dict",
   PyType.base "NoneType"]

namespace MethodCallArgument

/-- `MethodCallArgument.check(cls, inObject)`: `type(inObject) in dumps_table`.
Dictionary key membership in Python compares type objects for equality, i.e.
it is an exact type test. -/
def check (inObject : PyVal) : Bool :=
  decide (inObject.ty ∈ dumps_table)

end MethodCallArgument

/-- The reply mapping of a `MethodCall` command: a result (possibly null) and
an optional `deferred` correlation id. -/
structure MethodCallReply where
  result : Option PyVal
  deferred : Option String
deriving DecidableEq, Repr

/-- A `DeferredResponse` command as sent on the wire: correlation id plus an
optional result and an optional failure string. -/
structure DeferredResponseMsg where
  uuid : String
  result : Option PyVal
  failure : Option String
deriving DecidableEq, Repr

/-- The state of `maybeDeferred(method_func, *args, **kwargs)` right after the
invocation: an already-fired success, an already-fired failure (carrying
`str(exception)`), or a still pending Deferred. -/
inductive CallResult where
  | value (v : PyVal)
  | failure (msg : String)
  | pending
deriving DecidableEq, Repr

/-- What the server responder does with a `MethodCall`. -/
inductive ServerReply where
  | reply (r : MethodCallReply)
  | replyDeferred (r : MethodCallReply) (uuid : String)
  | methodCallError (msg : String)
deriving DecidableEq, Repr

/-- Result of `receive_method_call` together with a flag recording whether any
method of the exposed object was looked up and invoked. -/
structure ServerResult where
  action : ServerReply
  invoked : Bool
deriving DecidableEq, Repr

namespace MethodCallServerProtocol

/-- `MethodCallServerProtocol._check_result`: return the result if it is
serializable, otherwise raise `MethodCallError("Non-serializable result")`. -/
def check_result (result : PyVal) : Except String PyVal :=
  if MethodCallArgument.check result then Except.ok result
  else Except.error "Non-serializable result"

/-- `MethodCallServerProtocol.receive_method_call`.  The exposed object is the
function `object`, mapping a method name and arguments to the normalized
invocation outcome; `fresh_uuid` models `str(uuid4())`, the fresh correlation
id drawn when the result is still pending. -/
def receive_method_call (methods : List String)
    (object : String → List PyVal → List (String × PyVal) → CallResult)
    (fresh_uuid : String) (method : String) (args : List PyVal)
    (kwargs : List (String × PyVal)) : ServerResult :=
  if method ∈ methods then
    match object method args kwargs with
    | CallResult.failure msg => ⟨ServerReply.methodCallError msg, true⟩
    | CallResult.value v =>
        match check_result v with
        | Except.ok r => ⟨ServerReply.reply ⟨some r, none⟩, true⟩
        | Except.error e => ⟨ServerReply.methodCallError e, true⟩
    | CallResult.pending =>
        ⟨ServerReply.replyDeferred ⟨none, some fresh_uuid⟩ fresh_uuid, true⟩
  else
    ⟨ServerReply.methodCallError ("Forbidden method '" ++ method ++ "'"), false⟩

/-- `MethodCallServerProtocol.send_deferred_response`, the continuation
attached with `addBoth` to a pending Deferred.  The input is the resolution:
`Sum.inl msg` for a Failure (carrying `str(result.value)`), `Sum.inr v` for a
success value.  `Except.ok m` means the `DeferredResponse` `m` is passed to
`callRemote`; `Except.error e` means an exception escaped the continuation, so
no `DeferredResponse` is sent at all. -/
def send_deferred_response (result : Sum String PyVal) (uuid : String) :
    Except String DeferredResponseMsg :=
  match result with
  | Sum.inl failureMsg => Except.ok ⟨uuid, none, some failureMsg⟩
  | Sum.inr v =>
      match check_result v with
      | Except.ok r => Except.ok ⟨uuid, some r, none⟩
      | Except.error e => Except.error e

end MethodCallServerProtocol

/-- A reactor timer handle as seen by the client protocol: an id plus the
`called` flag Twisted sets once the timer has fired. -/
structure TimeoutCall where
  id : Nat
  called : Bool
deriving DecidableEq, Repr

/-- One entry of the pending-response table: the caller Deferred (identified
by a number) and the scheduled timeout call. -/
structure PendingResponse where
  d : Nat
  call : TimeoutCall
deriving DecidableEq, Repr

/-- The client protocol's `_pending_responses` dictionary, keyed by
correlation id. -/
abbrev PendingResponses := List (String × PendingResponse)

/-- The observable effect of `fire_pending_response` on the popped Deferred:
`dropped` when the uuid was absent (late response, silently ignored),
`success d c r` when `deferred.callback({"result": result})` ran (after
cancelling the timer iff `c`), and `failure d c msg` when
`deferred.errback(MethodCallError(msg))` ran. -/
inductive FireOutcome where
  | dropped
  | success (d : Nat) (cancelled : Bool) (response : MethodCallReply)
  | failure (d : Nat) (cancelled : Bool) (msg : String)
deriving DecidableEq, Repr

/-- What the client protocol's `handle_response` hands back to the caller:
a fresh pending Deferred, or the reply mapping returned directly. -/
inductive HandleResponseResult where
  | pending (d : Nat)
  | direct (r : MethodCallReply)
deriving DecidableEq, Repr

namespace MethodCallClientProtocol

/-- `MethodCallClientProtocol.fire_pending_response`: pop the entry for
`uuid` (a `KeyError` means a late response, ignored), cancel the timeout if it
has not fired yet, then fire the Deferred with `{"result": result}` or errback
it with `MethodCallError(failure)`.  Returns the new table and the effect. -/
def fire_pending_response (table : PendingResponses) (uuid : String)
    (result : Option PyVal) (failure : Option String) :
    PendingResponses × FireOutcome :=
  match List.lookup uuid table with
  | none => (table, FireOutcome.dropped)
  | some entry =>
      let table1 := table.filter fun e => e.1 != uuid
      let cancelled := !entry.call.called
      match failure with
      | none => (table1, FireOutcome.success entry.d cancelled ⟨result, none⟩)
      | some msg => (table1, FireOutcome.failure entry.d cancelled msg)

/-- `MethodCallClientProtocol.handle_response`: when the reply carries a
truthy `deferred` field, create a fresh Deferred `fresh_d`, schedule the
timeout timer `fresh_call` (firing `fire_pending_response(uuid, None,
"timeout")` after `timeout` seconds, reported as the third component), store
the pair in the table and return the Deferred; otherwise return the reply
directly. -/
def handle_response (table : PendingResponses) (timeout : Nat)
    (fresh_d : Nat) (fresh_call : Nat) (response : MethodCallReply) :
    PendingResponses × HandleResponseResult × Option (Nat × Nat) :=
  match response.deferred with
  | some uuid =>
      if uuid != "" then
        ((uuid, ⟨fresh_d, ⟨fresh_call, false⟩⟩) :: table,
         HandleResponseResult.pending fresh_d, some (fresh_call, timeout))
      else
        (table, HandleResponseResult.direct response, none)
  | none => (table, HandleResponseResult.direct response, none)

end MethodCallClientProtocol

/-- One entry of the `RemoteObject._pending_requests` table:
`(method, args, kwargs, call)`, where `call` is the overall-timeout timer
handle, if one has been scheduled. -/
structure PendingRequest where
  method : String
  args : List PyVal
  kwargs : List (String × PyVal)
  call : Option Nat
deriving DecidableEq, Repr

/-- A failure reaching `RemoteObject._handle_failure`: a `MethodCallError`
(protocol-level failure) or any other, transport-level, failure. -/
inductive ROFailure where
  | methodCallError (msg : String)
  | transport (msg : String)
deriving DecidableEq, Repr

/-- `failure.type is MethodCallError`. -/
def ROFailure.isMethodCallError : ROFailure → Bool
  | ROFailure.methodCallError _ => true
  | ROFailure.transport _ => false

/-- The mutable state of a `RemoteObject`: the current protocol reference, the
constructor flags, the pending-request table keyed by caller Deferred, and a
counter handing out fresh reactor timer handles. -/
structure ROState where
  protocol : Nat
  retry_on_reconnect : Bool
  timeout : Option Nat
  pending_requests : List (Nat × PendingRequest)
  fresh_call : Nat
deriving DecidableEq, Repr

/-- Externally visible effects of a `RemoteObject` handler: cancelling a
timer, erring back or calling back a caller Deferred, scheduling the
overall-timeout timer (whose callback is
`_handle_failure(MethodCallError("timeout"), method, args, kwargs,
deferred=d)`, with the `call` argument left at its `None` default), and
re-issuing `send_method_call` with handlers reattached to `d` carrying the
existing timer handle. -/
inductive ROAction where
  | cancel (call : Nat)
  | errback (d : Nat) (failure : ROFailure)
  | callback (d : Nat) (result : Option PyVal)
  | schedule (call : Nat) (delay : Nat) (method : String)
      (args : List PyVal) (kwargs : List (String × PyVal)) (d : Nat)
  | resend (method : String) (args : List PyVal)
      (kwargs : List (String × PyVal)) (d : Nat) (call : Option Nat)
deriving DecidableEq, Repr

/-- Is this action a `schedule`? -/
def ROAction.isSchedule : ROAction → Bool
  | ROAction.schedule _ _ _ _ _ _ => true
  | _ => false

namespace RemoteObject

/-- Python truthiness of `self._timeout` (`None` and `0` are falsy). -/
def timeoutConfigured : Option Nat → Bool
  | none => false
  | some t => t != 0

/-- Remove the entry keyed by `d` (`self._pending_requests.pop(deferred)`,
guarded by a membership test in the source). -/
def popRequest (table : List (Nat × PendingRequest)) (d : Nat) :
    List (Nat × PendingRequest) :=
  table.filter fun e => e.1 != d

/-- `self._pending_requests[deferred] = entry`: store or replace. -/
def setRequest (table : List (Nat × PendingRequest)) (d : Nat)
    (entry : PendingRequest) : List (Nat × PendingRequest) :=
  (d, entry) :: popRequest table d

/-- `RemoteObject.__init__`. -/
def init (protocol : Nat) (retry_on_reconnect : Bool) (timeout : Option Nat) :
    ROState :=
  { protocol := protocol, retry_on_reconnect := retry_on_reconnect,
    timeout := timeout, pending_requests := [], fresh_call := 0 }

/-- `RemoteObject._handle_failure(failure, method, args, kwargs, deferred,
call=None)`.  Returns the new state and the emitted effects. -/
def handle_failure (st : ROState) (failure : ROFailure) (method : String)
    (args : List PyVal) (kwargs : List (String × PyVal)) (d : Nat)
    (call : Option Nat) : ROState × List ROAction :=
  let is_method_call_error := failure.isMethodCallError
  let dont_retry := st.retry_on_reconnect == false
  if is_method_call_error || dont_retry then
    let st1 := { st with pending_requests := popRequest st.pending_requests d }
    let cancels := match call with
      | some c => [ROAction.cancel c]
      | none => ([] : List ROAction)
    (st1, cancels ++ [ROAction.errback d failure])
  else
    if timeoutConfigured st.timeout && call == none then
      let c := st.fresh_call
      ({ st with
          pending_requests :=
            setRequest st.pending_requests d ⟨method, args, kwargs, some c⟩,
          fresh_call := c + 1 },
       [ROAction.schedule c (st.timeout.getD 0) method args kwargs d])
    else
      ({ st with
          pending_requests :=
            setRequest st.pending_requests d ⟨method, args, kwargs, call⟩ },
       [])

/-- `RemoteObject._handle_response(response, deferred, call=None)`: cancel the
timer if one is attached, then fire the caller Deferred with
`response["result"]`. -/
def handle_response (response : MethodCallReply) (d : Nat)
    (call : Option Nat) : List ROAction :=
  let cancels := match call with
    | some c => [ROAction.cancel c]
    | none => ([] : List ROAction)
  cancels ++ [ROAction.callback d response.result]

/-- `RemoteObject._retry`: snapshot the pending-request table, clear it, and
re-issue `send_method_call` for every snapshotted entry, reattaching the
handlers with the same Deferred and the same timer handle. -/
def retry (st : ROState) : ROState × List ROAction :=
  let requests := st.pending_requests
  ({ st with pending_requests := [] },
   requests.map fun e =>
     ROAction.resend e.2.method e.2.args e.2.kwargs e.1 e.2.call)

/-- `RemoteObject._handle_reconnect(protocol)`: update the protocol reference
and, when retry-on-reconnect is set, retry the pending requests. -/
def handle_reconnect (st : ROState) (protocol : Nat) :
    ROState × List ROAction :=
  let st1 := { st with protocol := protocol }
  if st1.retry_on_reconnect then retry st1 else (st1, [])

end RemoteObject

/-- An externally triggered `RemoteObject` handler invocation: the errback or
callback of an issued `MethodCall`, or a reconnect notification from the
factory. -/
inductive ROOp where
  | failureOp (failure : ROFailure) (method : String) (args : List PyVal)
      (kwargs : List (String × PyVal)) (d : Nat) (call : Option Nat)
  | responseOp (response : MethodCallReply) (d : Nat) (call : Option Nat)
  | reconnectOp (protocol : Nat)
deriving DecidableEq, Repr

/-- One handler invocation as a state transition with emitted effects. -/
def ROState.step (st : ROState) : ROOp → ROState × List ROAction
  | ROOp.failureOp f m a k d c => RemoteObject.handle_failure st f m a k d c
  | ROOp.responseOp r d c => (st, RemoteObject.handle_response r d c)
  | ROOp.reconnectOp p => RemoteObject.handle_reconnect st p

/-- Run a sequence of handler invocations, returning the final state. -/
def ROState.run (st : ROState) : List ROOp → ROState
  | [] => st
  | op :: ops => ROState.run (st.step op).1 ops

/-- Run a sequence of handler invocations, collecting all emitted effects. -/
def ROState.runTrace (st : ROState) : List ROOp → ROState × List ROAction
  | [] => (st, [])
  | op :: ops =>
      let s1 := st.step op
      let s2 := ROState.runTrace s1.1 ops
      (s2.1, s1.2 ++ s2.2)

example :
    RemoteObject.handle_failure (RemoteObject.init 0 true (some 30))
      (ROFailure.transport "lost") "ping" [] [] 3 none =
    ({ protocol := 0, retry_on_reconnect := true, timeout := some 30,
       pending_requests := [(3, ⟨"ping", [], [], some 0⟩)], fresh_call := 1 },
     [ROAction.schedule 0 30 "ping" [] [] 3]) := by decide

example :
    RemoteObject.handle_failure (RemoteObject.init 0 true none)
      (ROFailure.transport "lost") "ping" [] [] 3 none =
    ({ protocol := 0, retry_on_reconnect := true, timeout := none,
       pending_requests := [(3, ⟨"ping", [], [], none⟩)], fresh_call := 0 },
     []) := by decide

example :
    RemoteObject.handle_reconnect
      { protocol := 0, retry_on_reconnect := true, timeout := none,
        pending_requests := [(3, ⟨"ping", [], [], none⟩)], fresh_call := 0 } 9 =
    ({ protocol := 9, retry_on_reconnect := true, timeout := none,
       pending_requests := [], fresh_call := 0 },
     [ROAction.resend "ping" [] [] 3 none]) := by decide

example :
    MethodCallClientProtocol.fire_pending_response
      [("u1", ⟨4, ⟨2, true⟩⟩)] "u1" none (some "timeout") =
    ([], FireOutcome.failure 4 false "timeout") := by decide

example : MethodCallArgument.check ⟨PyType.base "int", 3⟩ = true := by decide
example : MethodCallArgument.check ⟨PyType.sub "myint" (PyType.base "int"), 3⟩ = false := by
  decide
example :
    MethodCallServerProtocol.receive_method_call ["echo"]
      (fun _ args _ => CallResult.value (args.headD ⟨PyType.base "NoneType", 0⟩))
      "u0" "echo" [⟨PyType.base "str", 7⟩] [] =
    ⟨ServerReply.reply ⟨some ⟨PyType.base "str", 7⟩, none⟩, true⟩ := by decide
example :
    MethodCallServerProtocol.send_deferred_response
      (Sum.inr ⟨PyType.base "set", 0⟩) "u1" =
    Except.error "Non-serializable result" := rfl

/-- C9: `MethodCallArgument.check` is an exact type-membership test: for
every value `v` it returns true iff the runtime type of `v` is exactly one of
the codec's dump-table types; in particular an instance of a strict subclass
of a supported type is reported non-serializable. -/
theorem C9_check_is_exact_type_membership (v : PyVal) :
    (MethodCallArgument.check v = true ↔ v.ty ∈ dumps_table) ∧
    (∀ n p, p ∈ dumps_table → v.ty = PyType.sub n p →
      MethodCallArgument.check v = false) := by
  constructor
  · simp [MethodCallArgument.check]
  · intro n p hp hty
    have hnot : v.ty ∉ dumps_table := by
      rw [hty]
      intro hmem
      simp [dumps_table] at hmem
    simp [MethodCallArgument.check, hnot]

/-- C9 witness: `int` is a supported type, yet an instance of the strict
subclass `myint` of `int` is reported non-serializable. -/
theorem C9_witness :
    PyType.base "int" ∈ dumps_table ∧
    MethodCallArgument.check ⟨PyType.sub "myint" (PyType.base "int"), 0⟩ = false :=
  ⟨by decide,
   (C9_check_is_exact_type_membership
      ⟨PyType.sub "myint" (PyType.base "int"), 0⟩).2 "myint"
     (PyType.base "int") (by decide) rfl⟩

/-- C7: a `MethodCall` for a method name `m` not in the server's whitelist
fails with `METHOD_CALL_ERROR` carrying "Forbidden method '<m>'", and no
method of the exposed object is invoked (the `invoked` flag is false). -/
theorem C7_forbidden_method (methods : List String)
    (object : String → List PyVal → List (String × PyVal) → CallResult)
    (u m : String) (args : List PyVal) (kwargs : List (String × PyVal))
    (h : m ∉ methods) :
    MethodCallServerProtocol.receive_method_call methods object u m args kwargs =
      ⟨ServerReply.methodCallError ("Forbidden method '" ++ m ++ "'"), false⟩ := by
  simp [MethodCallServerProtocol.receive_method_call, h]

/-- C7 witness: with whitelist `["echo"]`, calling `forbidden` is rejected
without any invocation on the exposed object. -/
theorem C7_witness :
    "forbidden" ∉ ["echo"] ∧
    MethodCallServerProtocol.receive_method_call ["echo"]
        (fun _ _ _ => CallResult.pending) "u0" "forbidden" [] [] =
      ⟨ServerReply.methodCallError "Forbidden method 'forbidden'", false⟩ :=
  ⟨by decide,
   C7_forbidden_method ["echo"] (fun _ _ _ => CallResult.pending)
     "u0" "forbidden" [] [] (by decide)⟩

/-- C1: at the failing input — a server-side Deferred resolving with a value
whose exact type is not in the codec table — `send_deferred_response`'s call
to `_check_result` raises `MethodCallError("Non-serializable result")` inside
the `addBoth` continuation (`Except.error`), so `callRemote(DeferredResponse,
...)` is never reached: no `DeferredResponse` carrying
`failure = "Non-serializable result"` is sent, contradicting the function's
own docstring ("either success or failure is sent to the peer"). -/
theorem C1_unserializable_deferred_result_sends_nothing :
    MethodCallServerProtocol.send_deferred_response
      (Sum.inr ⟨PyType.base "set", 0⟩) "u-1" =
    Except.error "Non-serializable result" := rfl

/-- C2: for a whitelisted method whose invocation returns a still pending
Deferred, the server replies immediately with `{result: null, deferred: u}`
for the fresh correlation id `u` and registers `send_deferred_response`, which
sends `DeferredResponse(uuid=u, failure=str(error))` when the Deferred fails
and `DeferredResponse(uuid=u, result=v)` when it succeeds with a serializable
value `v`. -/
theorem C2_deferred_reply_and_continuation (methods : List String)
    (object : String → List PyVal → List (String × PyVal) → CallResult)
    (u m : String) (args : List PyVal) (kwargs : List (String × PyVal))
    (hm : m ∈ methods) (hp : object m args kwargs = CallResult.pending) :
    MethodCallServerProtocol.receive_method_call methods object u m args kwargs =
      ⟨ServerReply.replyDeferred ⟨none, some u⟩ u, true⟩
    ∧ (∀ msg, MethodCallServerProtocol.send_deferred_response (Sum.inl msg) u =
        Except.ok ⟨u, none, some msg⟩)
    ∧ (∀ v, MethodCallArgument.check v = true →
        MethodCallServerProtocol.send_deferred_response (Sum.inr v) u =
          Except.ok ⟨u, some v, none⟩) := by
  refine ⟨?_, ?_, ?_⟩
  · simp [MethodCallServerProtocol.receive_method_call, hm, hp]
  · intro msg
    rfl
  · intro v hv
    simp [MethodCallServerProtocol.send_deferred_response,
      MethodCallServerProtocol.check_result, hv]

/-- C2 witness: a `slow` method returning a pending Deferred gets the reply
`{result: null, deferred: "u2"}`, and the registered continuation sends the
success and failure `DeferredResponse`s. -/
theorem C2_witness :
    "slow" ∈ ["slow"] ∧
    (fun (_ : String) (_ : List PyVal) (_ : List (String × PyVal)) =>
        CallResult.pending) "slow" [] [] = CallResult.pending ∧
    MethodCallServerProtocol.receive_method_call ["slow"]
        (fun _ _ _ => CallResult.pending) "u2" "slow" [] [] =
      ⟨ServerReply.replyDeferred ⟨none, some "u2"⟩ "u2", true⟩ ∧
    MethodCallServerProtocol.send_deferred_response
        (Sum.inr ⟨PyType.base "int", 42⟩) "u2" =
      Except.ok ⟨"u2", some ⟨PyType.base "int", 42⟩, none⟩ := by
  have h := C2_deferred_reply_and_continuation ["slow"]
    (fun _ _ _ => CallResult.pending) "u2" "slow" [] [] (by decide) rfl
  exact ⟨by decide, rfl, h.1, h.2.2 ⟨PyType.base "int", 42⟩ (by decide)⟩

/-- C8: a whitelisted method returning a serializable value `v` synchronously
is replied to with `{result: v}` and no deferred field; the client protocol
returns that reply directly, and `RemoteObject._handle_response` fires the
caller's Deferred with `v`. -/
theorem C8_sync_round_trip (methods : List String)
    (object : String → List PyVal → List (String × PyVal) → CallResult)
    (u m : String) (args : List PyVal) (kwargs : List (String × PyVal))
    (v : PyVal) (table : PendingResponses)
    (timeout fresh_d fresh_call d : Nat)
    (hm : m ∈ methods) (hv : object m args kwargs = CallResult.value v)
    (hs : MethodCallArgument.check v = true) :
    MethodCallServerProtocol.receive_method_call methods object u m args kwargs =
      ⟨ServerReply.reply ⟨some v, none⟩, true⟩
    ∧ MethodCallClientProtocol.handle_response table timeout fresh_d fresh_call
        ⟨some v, none⟩ =
        (table, HandleResponseResult.direct ⟨some v, none⟩, none)
    ∧ RemoteObject.handle_response ⟨some v, none⟩ d none =
        [ROAction.callback d (some v)] := by
  refine ⟨?_, rfl, rfl⟩
  simp [MethodCallServerProtocol.receive_method_call, hm, hv,
    MethodCallServerProtocol.check_result, hs]

/-- C8 witness: `echo` returning the string value `7` synchronously is
replied to as `{result: 7}` and the caller's Deferred fires with it. -/
theorem C8_witness :
    "echo" ∈ ["echo"] ∧
    MethodCallArgument.check ⟨PyType.base "str", 7⟩ = true ∧
    MethodCallServerProtocol.receive_method_call ["echo"]
        (fun _ _ _ => CallResult.value ⟨PyType.base "str", 7⟩) "u3" "echo" [] [] =
      ⟨ServerReply.reply ⟨some ⟨PyType.base "str", 7⟩, none⟩, true⟩ ∧
    RemoteObject.handle_response ⟨some ⟨PyType.base "str", 7⟩, none⟩ 5 none =
      [ROAction.callback 5 (some ⟨PyType.base "str", 7⟩)] := by
  have h := C8_sync_round_trip ["echo"]
    (fun _ _ _ => CallResult.value ⟨PyType.base "str", 7⟩) "u3" "echo" [] []
    ⟨PyType.base "str", 7⟩ [] 60 0 0 5 (by decide) rfl (by decide)
  exact ⟨by decide, by decide, h.1, h.2.2⟩

/-- Popping a key from the pending-response table removes every entry for it:
a later lookup of the same uuid finds nothing. -/
theorem lookup_filter_self (uuid : String) (l : PendingResponses) :
    List.lookup uuid (List.filter (fun e => e.1 != uuid) l) = none := by
  induction l with
  | nil => rfl
  | cons hd tl ih =>
      by_cases hk : hd.1 = uuid
      · simp only [List.filter_cons, hk, bne_self_eq_false, if_false,
          Bool.false_eq_true, ih]
      · have hne : (hd.1 != uuid) = true := by
          simp [hk]
        have hne2 : (uuid == hd.1) = false := by
          simp [Ne.symm hk]
        cases hd with
        | mk k v =>
            simp only [List.filter_cons]
            simp only at hne
            rw [if_pos hne]
            simp only [List.lookup]
            simp only at hne2
            rw [hne2, ih]

/-- C3: when the deferred-response timeout fires for a pending uuid, the
caller Deferred errbacks with `MethodCallError("timeout")` and the entry is
removed; a DeferredResponse for an absent uuid is silently dropped and leaves
the table and all Deferreds unchanged; after any firing that found the entry,
a second firing for the same uuid is dropped, so each entry is removed
exactly once. -/
theorem C3_timeout_and_exactly_once (table : PendingResponses)
    (uuid : String) :
    (∀ entry, List.lookup uuid table = some entry →
      MethodCallClientProtocol.fire_pending_response table uuid none
          (some "timeout") =
        (table.filter fun e => e.1 != uuid,
         FireOutcome.failure entry.d (!entry.call.called) "timeout"))
    ∧ (∀ r f, List.lookup uuid table = none →
        MethodCallClientProtocol.fire_pending_response table uuid r f =
          (table, FireOutcome.dropped))
    ∧ (∀ r f r2 f2, (List.lookup uuid table).isSome = true →
        MethodCallClientProtocol.fire_pending_response
            (MethodCallClientProtocol.fire_pending_response table uuid r f).1
            uuid r2 f2 =
          ((MethodCallClientProtocol.fire_pending_response table uuid r f).1,
           FireOutcome.dropped)) := by
  refine ⟨?_, ?_, ?_⟩
  · intro entry he
    simp [MethodCallClientProtocol.fire_pending_response, he]
  · intro r f he
    simp [MethodCallClientProtocol.fire_pending_response, he]
  · intro r f r2 f2 hsome
    obtain ⟨entry, he⟩ := Option.isSome_iff_exists.mp hsome
    have h1 : (MethodCallClientProtocol.fire_pending_response table uuid r f).1 =
        table.filter fun e => e.1 != uuid := by
      simp only [MethodCallClientProtocol.fire_pending_response, he]
      cases f <;> rfl
    rw [h1]
    simp [MethodCallClientProtocol.fire_pending_response, lookup_filter_self]

/-- C3 witness: a table holding uuid `"u1"` with a not-yet-fired timer; the
timeout fires the errback and empties the table; a duplicate response is then
dropped. -/
theorem C3_witness :
    List.lookup "u1" [("u1", (⟨4, ⟨2, true⟩⟩ : PendingResponse))] =
      some ⟨4, ⟨2, true⟩⟩ ∧
    MethodCallClientProtocol.fire_pending_response
        [("u1", ⟨4, ⟨2, true⟩⟩)] "u1" none (some "timeout") =
      ([], FireOutcome.failure 4 false "timeout") ∧
    MethodCallClientProtocol.fire_pending_response
        (MethodCallClientProtocol.fire_pending_response
          [("u1", ⟨4, ⟨2, true⟩⟩)] "u1" none (some "timeout")).1
        "u1" (some ⟨PyType.base "int", 1⟩) none =
      ((MethodCallClientProtocol.fire_pending_response
          [("u1", ⟨4, ⟨2, true⟩⟩)] "u1" none (some "timeout")).1,
       FireOutcome.dropped) := by
  have h := C3_timeout_and_exactly_once [("u1", ⟨4, ⟨2, true⟩⟩)] "u1"
  refine ⟨by decide, ?_, ?_⟩
  · exact h.1 ⟨4, ⟨2, true⟩⟩ rfl
  · exact h.2.2 none (some "timeout") (some ⟨PyType.base "int", 1⟩) none rfl

/-- C4: in `RemoteObject._handle_failure`, when the failure is a
`MethodCallError` or retry-on-reconnect is off, the entry for the caller
Deferred is removed from the pending-request table, the attached timeout call
(if any) is cancelled and the failure is propagated to the Deferred;
otherwise the entry `(method, args, kwargs, call)` is stored or replaced
keyed by the Deferred, and an overall-timeout call (whose firing re-enters
the handler with `MethodCallError("timeout")`) is scheduled exactly when a
timeout is configured and no call has been scheduled yet for this request. -/
theorem C4_handle_failure_branches (st : ROState) (f : ROFailure)
    (m : String) (a : List PyVal) (k : List (String × PyVal)) (d : Nat)
    (c : Option Nat) :
    ((f.isMethodCallError = true ∨ st.retry_on_reconnect = false) →
      RemoteObject.handle_failure st f m a k d c =
        ({ st with
            pending_requests := RemoteObject.popRequest st.pending_requests d },
         (match c with
          | some cc => [ROAction.cancel cc]
          | none => ([] : List ROAction)) ++ [ROAction.errback d f]))
    ∧ (f.isMethodCallError = false → st.retry_on_reconnect = true →
        ((RemoteObject.timeoutConfigured st.timeout = true → c = none →
          RemoteObject.handle_failure st f m a k d c =
            ({ st with
                pending_requests := RemoteObject.setRequest st.pending_requests
                  d ⟨m, a, k, some st.fresh_call⟩,
                fresh_call := st.fresh_call + 1 },
             [ROAction.schedule st.fresh_call (st.timeout.getD 0) m a k d]))
        ∧ ((RemoteObject.timeoutConfigured st.timeout = false ∨ c ≠ none) →
            RemoteObject.handle_failure st f m a k d c =
              ({ st with
                  pending_requests := RemoteObject.setRequest st.pending_requests
                    d ⟨m, a, k, c⟩ },
               [])))) := by
  constructor
  · intro h
    have hcond : (f.isMethodCallError || (st.retry_on_reconnect == false)) = true := by
      rcases h with h | h <;> simp [h]
    simp only [RemoteObject.handle_failure, hcond]
    simp
  · intro hf hr
    have hcond : (f.isMethodCallError || (st.retry_on_reconnect == false)) = false := by
      simp [hf, hr]
    constructor
    · intro ht hc
      subst hc
      simp [RemoteObject.handle_failure, hcond, ht]
      exact ⟨hf, hr⟩
    · intro h
      rcases h with h | h
      · simp [RemoteObject.handle_failure, hcond, h]
        exact ⟨hf, hr⟩
      · obtain ⟨cc, rfl⟩ := Option.ne_none_iff_exists'.mp h
        simp [RemoteObject.handle_failure, hcond]
        exact ⟨hf, hr⟩

/-- C4 witness: with retry-on-reconnect off, a transport failure for Deferred
3 with an attached timer 5 pops the (empty) table, cancels timer 5 and
propagates the failure; with retry on and a 30-second timeout, a first
transport failure stores the entry and schedules the overall timeout. -/
theorem C4_witness :
    ((ROFailure.transport "lost").isMethodCallError = true ∨
      (RemoteObject.init 7 false none).retry_on_reconnect = false) ∧
    RemoteObject.handle_failure (RemoteObject.init 7 false none)
        (ROFailure.transport "lost") "ping" [] [] 3 (some 5) =
      ({ protocol := 7, retry_on_reconnect := false, timeout := none,
         pending_requests := [], fresh_call := 0 },
       [ROAction.cancel 5, ROAction.errback 3 (ROFailure.transport "lost")]) ∧
    RemoteObject.handle_failure (RemoteObject.init 7 true (some 30))
        (ROFailure.transport "lost") "ping" [] [] 3 none =
      ({ protocol := 7, retry_on_reconnect := true, timeout := some 30,
         pending_requests := [(3, ⟨"ping", [], [], some 0⟩)], fresh_call := 1 },
       [ROAction.schedule 0 30 "ping" [] [] 3]) := by
  refine ⟨Or.inr rfl, ?_, ?_⟩
  · exact (C4_handle_failure_branches (RemoteObject.init 7 false none)
      (ROFailure.transport "lost") "ping" [] [] 3 (some 5)).1 (Or.inr rfl)
  · exact ((C4_handle_failure_branches (RemoteObject.init 7 true (some 30))
      (ROFailure.transport "lost") "ping" [] [] 3 none).2 rfl rfl).1 rfl rfl

/-- C5: `RemoteObject._handle_reconnect` updates the protocol reference, and
when retry-on-reconnect is set it snapshots the pending-request table, clears
it, and re-issues `send_method_call` for every snapshotted entry with the
same method, args and kwargs, reattaching the handlers with the same caller
Deferred and carrying the existing timeout handle through. -/
theorem C5_reconnect_updates_and_retries (st : ROState) (p : Nat) :
    (RemoteObject.handle_reconnect st p).1.protocol = p ∧
    (st.retry_on_reconnect = true →
      RemoteObject.handle_reconnect st p =
        ({ st with protocol := p, pending_requests := [] },
         st.pending_requests.map fun e =>
           ROAction.resend e.2.method e.2.args e.2.kwargs e.1 e.2.call)) := by
  constructor
  · by_cases hr : st.retry_on_reconnect <;>
      simp [RemoteObject.handle_reconnect, RemoteObject.retry, hr]
  · intro hr
    simp [RemoteObject.handle_reconnect, RemoteObject.retry, hr]

/-- C5 witness: with one pending entry `(3, ("ping", [], [], timer 5))` and
retry on, the reconnect notification for protocol 9 clears the table and
re-issues the call for Deferred 3 with timer 5 attached. -/
theorem C5_witness :
    ({ protocol := 0, retry_on_reconnect := true, timeout := some 30,
       pending_requests := [(3, ⟨"ping", [], [], some 5⟩)],
       fresh_call := 6 } : ROState).retry_on_reconnect = true ∧
    RemoteObject.handle_reconnect
        { protocol := 0, retry_on_reconnect := true, timeout := some 30,
          pending_requests := [(3, ⟨"ping", [], [], some 5⟩)],
          fresh_call := 6 } 9 =
      ({ protocol := 9, retry_on_reconnect := true, timeout := some 30,
         pending_requests := [], fresh_call := 6 },
       [ROAction.resend "ping" [] [] 3 (some 5)]) :=
  ⟨rfl,
   (C5_reconnect_updates_and_retries
      { protocol := 0, retry_on_reconnect := true, timeout := some 30,
        pending_requests := [(3, ⟨"ping", [], [], some 5⟩)],
        fresh_call := 6 } 9).2 rfl⟩

/-- With retry-on-reconnect off and an empty pending-request table, every
handler invocation keeps the flag off and the table empty: the propagate
branch of `_handle_failure` is always taken and only pops. -/
theorem step_preserves_no_retry_empty (st : ROState) (op : ROOp)
    (hr : st.retry_on_reconnect = false) (hp : st.pending_requests = []) :
    (st.step op).1.retry_on_reconnect = false ∧
    (st.step op).1.pending_requests = [] := by
  cases op with
  | failureOp f m a k d c =>
      have hcond :
          (f.isMethodCallError || (st.retry_on_reconnect == false)) = true := by
        simp [hr]
      simp only [ROState.step, RemoteObject.handle_failure, hcond]
      simp [hr, hp, RemoteObject.popRequest]
  | responseOp r d c => exact ⟨hr, hp⟩
  | reconnectOp p =>
      simp [ROState.step, RemoteObject.handle_reconnect, RemoteObject.retry,
        hr, hp]

/-- Iterated version of `step_preserves_no_retry_empty`. -/
theorem run_no_retry_empty : ∀ (ops : List ROOp) (st : ROState),
    st.retry_on_reconnect = false → st.pending_requests = [] →
    (st.run ops).retry_on_reconnect = false ∧ (st.run ops).pending_requests = []
  | [], _, hr, hp => ⟨hr, hp⟩
  | op :: ops, st, hr, hp => by
      have h := step_preserves_no_retry_empty st op hr hp
      exact run_no_retry_empty ops (st.step op).1 h.1 h.2

/-- C6: for every `RemoteObject` constructed with retry-on-reconnect false,
the pending-request table is empty after every sequence of handler
invocations (hence before and after every single operation): no failure path
ever stores an entry in it. -/
theorem C6_no_retry_table_always_empty (protocol : Nat)
    (timeout : Option Nat) (ops : List ROOp) :
    ((RemoteObject.init protocol false timeout).run ops).pending_requests = [] :=
  (run_no_retry_empty ops (RemoteObject.init protocol false timeout) rfl rfl).2

/-- No handler invocation changes the configured timeout. -/
theorem step_timeout_eq (st : ROState) (op : ROOp) :
    (st.step op).1.timeout = st.timeout := by
  cases op with
  | failureOp f m a k d c =>
      simp only [ROState.step, RemoteObject.handle_failure]
      split
      · rfl
      · split
        · rfl
        · rfl
  | responseOp r d c => rfl
  | reconnectOp p =>
      simp only [ROState.step, RemoteObject.handle_reconnect, RemoteObject.retry]
      split
      · rfl
      · rfl

/-- No handler invocation changes the retry-on-reconnect flag. -/
theorem step_retry_eq (st : ROState) (op : ROOp) :
    (st.step op).1.retry_on_reconnect = st.retry_on_reconnect := by
  cases op with
  | failureOp f m a k d c =>
      simp only [ROState.step, RemoteObject.handle_failure]
      split
      · rfl
      · split
        · rfl
        · rfl
  | responseOp r d c => rfl
  | reconnectOp p =>
      simp only [ROState.step, RemoteObject.handle_reconnect, RemoteObject.retry]
      split
      · rfl
      · rfl

/-- With no timeout configured, `_handle_failure` emits either the propagate
actions or nothing: it never schedules a timer. -/
theorem handle_failure_actions_no_timeout (st : ROState)
    (ht : st.timeout = none) (f : ROFailure) (m : String) (a : List PyVal)
    (k : List (String × PyVal)) (d : Nat) (c : Option Nat) :
    (RemoteObject.handle_failure st f m a k d c).2 =
      (if (f.isMethodCallError || (st.retry_on_reconnect == false)) = true
       then (match c with
             | some cc => [ROAction.cancel cc]
             | none => ([] : List ROAction)) ++ [ROAction.errback d f]
       else []) := by
  have htc : RemoteObject.timeoutConfigured st.timeout = false := by
    rw [ht]
    rfl
  by_cases hcond : (f.isMethodCallError || (st.retry_on_reconnect == false)) = true
  · have hP : f.isMethodCallError = true ∨ st.retry_on_reconnect = false := by
      simpa using hcond
    simp [RemoteObject.handle_failure, hcond, hP]
  · have hc2 : (f.isMethodCallError || (st.retry_on_reconnect == false)) = false := by
      simpa using hcond
    have hc3 : f.isMethodCallError = false ∧ st.retry_on_reconnect = true := by
      simpa using hc2
    have hP : ¬(f.isMethodCallError = true ∨ st.retry_on_reconnect = false) := by
      simp [hc3.1, hc3.2]
    simp [RemoteObject.handle_failure, hc2, hP, htc]

/-- With no timeout configured, a single handler invocation never emits a
`schedule` action. -/
theorem step_no_schedule (st : ROState) (op : ROOp) (ht : st.timeout = none) :
    ∀ act ∈ (st.step op).2, act.isSchedule = false := by
  intro act hact
  cases op with
  | failureOp f m a k d c =>
      simp only [ROState.step] at hact
      rw [handle_failure_actions_no_timeout st ht f m a k d c] at hact
      by_cases hcond : (f.isMethodCallError || (st.retry_on_reconnect == false)) = true
      · rw [if_pos hcond] at hact
        rcases List.mem_append.mp hact with h | h
        · cases c with
          | none => simp at h
          | some cc =>
              simp only [List.mem_singleton] at h
              subst h
              rfl
        · simp only [List.mem_singleton] at h
          subst h
          rfl
      · rw [if_neg hcond] at hact
        simp at hact
  | responseOp r d c =>
      simp only [ROState.step, RemoteObject.handle_response] at hact
      rcases List.mem_append.mp hact with h | h
      · cases c with
        | none => simp at h
        | some cc =>
            simp only [List.mem_singleton] at h
            subst h
            rfl
      · simp only [List.mem_singleton] at h
        subst h
        rfl
  | reconnectOp p =>
      simp only [ROState.step, RemoteObject.handle_reconnect,
        RemoteObject.retry] at hact
      by_cases hrr : st.retry_on_reconnect = true
      · simp only [hrr, if_true] at hact
        rcases List.mem_map.mp hact with ⟨e, _, rfl⟩
        rfl
      · simp [hrr] at hact

/-- One unfolding of `runTrace`. -/
theorem runTrace_cons (st : ROState) (op : ROOp) (ops : List ROOp) :
    st.runTrace (op :: ops) =
      ((ROState.runTrace (st.step op).1 ops).1,
       (st.step op).2 ++ (ROState.runTrace (st.step op).1 ops).2) := rfl

/-- With no timeout configured, no sequence of handler invocations ever
emits a `schedule` action. -/
theorem runTrace_no_schedule : ∀ (ops : List ROOp) (st : ROState),
    st.timeout = none → ∀ act ∈ (st.runTrace ops).2, act.isSchedule = false
  | [], st, ht, act, hact => by simp [ROState.runTrace] at hact
  | op :: ops, st, ht, act, hact => by
      rw [runTrace_cons] at hact
      rcases List.mem_append.mp hact with h | h
      · exact step_no_schedule st op ht act h
      · have ht2 : (st.step op).1.timeout = none := by
          rw [step_timeout_eq]
          exact ht
        exact runTrace_no_schedule ops (st.step op).1 ht2 act h

/-- `_handle_failure` errbacks only the Deferred it was invoked for, with the
failure it was handed, and only in the propagate branch. -/
theorem handle_failure_errback_mem (st : ROState) (f : ROFailure)
    (m : String) (a : List PyVal) (k : List (String × PyVal)) (d : Nat)
    (c : Option Nat) (d2 : Nat) (f2 : ROFailure)
    (h : ROAction.errback d2 f2 ∈ (RemoteObject.handle_failure st f m a k d c).2) :
    f2 = f ∧ d2 = d ∧
    (f.isMethodCallError = true ∨ st.retry_on_reconnect = false) := by
  by_cases hcond : (f.isMethodCallError || (st.retry_on_reconnect == false)) = true
  · have hP : f.isMethodCallError = true ∨ st.retry_on_reconnect = false := by
      simpa using hcond
    cases c with
    | none =>
        simp [RemoteObject.handle_failure, hcond, hP] at h
        exact ⟨h.2, h.1, hP⟩
    | some cc =>
        simp [RemoteObject.handle_failure, hcond, hP] at h
        exact ⟨h.2, h.1, hP⟩
  · exfalso
    have hc2 : (f.isMethodCallError || (st.retry_on_reconnect == false)) = false := by
      simpa using hcond
    have hc3 : f.isMethodCallError = false ∧ st.retry_on_reconnect = true := by
      simpa using hc2
    have hP : ¬(f.isMethodCallError = true ∨ st.retry_on_reconnect = false) := by
      simp [hc3.1, hc3.2]
    by_cases hin : (RemoteObject.timeoutConfigured st.timeout && (c == none)) = true
    · have hinP : RemoteObject.timeoutConfigured st.timeout = true ∧ c = none := by
        simpa using hin
      simp [RemoteObject.handle_failure, hc2, hP, hinP.1, hinP.2] at h
    · have hinP : ¬(RemoteObject.timeoutConfigured st.timeout = true ∧ c = none) :=
        fun hx => hin (by rw [hx.1, hx.2]; rfl)
      simp [RemoteObject.handle_failure, hc2, hP, hinP] at h

/-- With retry-on-reconnect set, a single handler invocation emits an
`errback` only for an externally injected `MethodCallError` failure op. -/
theorem step_errback_mem (st : ROState) (op : ROOp)
    (hr : st.retry_on_reconnect = true) (d2 : Nat) (f2 : ROFailure)
    (h : ROAction.errback d2 f2 ∈ (st.step op).2) :
    f2.isMethodCallError = true ∧
    ∃ m a k c, op = ROOp.failureOp f2 m a k d2 c := by
  cases op with
  | failureOp f m a k d c =>
      obtain ⟨hf2, hd2, hor⟩ :=
        handle_failure_errback_mem st f m a k d c d2 f2 h
      subst hf2
      subst hd2
      rcases hor with h1 | h1
      · exact ⟨h1, m, a, k, c, rfl⟩
      · rw [hr] at h1
        simp at h1
  | responseOp r d c =>
      exfalso
      simp only [ROState.step, RemoteObject.handle_response] at h
      rcases List.mem_append.mp h with h1 | h1
      · cases c with
        | none => simp at h1
        | some cc => simp at h1
      · simp at h1
  | reconnectOp p =>
      exfalso
      simp only [ROState.step, RemoteObject.handle_reconnect,
        RemoteObject.retry] at h
      by_cases hrr : st.retry_on_reconnect = true
      · simp only [hrr, if_true] at h
        rcases List.mem_map.mp h with ⟨e, _, he⟩
        simp at he
      · simp [hrr] at h

/-- With retry-on-reconnect set, every `errback` in a trace stems from an
externally injected `MethodCallError` failure op in the sequence. -/
theorem runTrace_errback_from_ops : ∀ (ops : List ROOp) (st : ROState),
    st.retry_on_reconnect = true →
    ∀ d2 f2, ROAction.errback d2 f2 ∈ (st.runTrace ops).2 →
      f2.isMethodCallError = true ∧
      ∃ m a k c, ROOp.failureOp f2 m a k d2 c ∈ ops
  | [], st, _, d2, f2, h => by simp [ROState.runTrace] at h
  | op :: ops, st, hr, d2, f2, h => by
      rw [runTrace_cons] at h
      rcases List.mem_append.mp h with h1 | h1
      · obtain ⟨hmce, m, a, k, c, rfl⟩ := step_errback_mem st op hr d2 f2 h1
        exact ⟨hmce, m, a, k, c, List.mem_cons_self _ _⟩
      · have hr2 : (st.step op).1.retry_on_reconnect = true := by
          rw [step_retry_eq]
          exact hr
        obtain ⟨hmce, m, a, k, c, hmem⟩ :=
          runTrace_errback_from_ops ops (st.step op).1 hr2 d2 f2 h1
        exact ⟨hmce, m, a, k, c, List.mem_cons_of_mem _ hmem⟩

/-- A pending entry for Deferred `d` survives `_handle_failure` invocations
that concern a different Deferred. -/
theorem pending_preserved_failure (st : ROState) (d : Nat)
    (r : PendingRequest) (hmem : (d, r) ∈ st.pending_requests)
    (f : ROFailure) (m : String) (a : List PyVal)
    (k : List (String × PyVal)) (d2 : Nat) (c : Option Nat) (hne : d2 ≠ d) :
    (d, r) ∈ (RemoteObject.handle_failure st f m a k d2 c).1.pending_requests := by
  have hfil : (d, r) ∈ RemoteObject.popRequest st.pending_requests d2 := by
    refine List.mem_filter.mpr ⟨hmem, ?_⟩
    simp only [bne_iff_ne, ne_eq]
    exact Ne.symm hne
  by_cases hcond : (f.isMethodCallError || (st.retry_on_reconnect == false)) = true
  · have hP : f.isMethodCallError = true ∨ st.retry_on_reconnect = false := by
      simpa using hcond
    simp only [RemoteObject.handle_failure]
    rw [if_pos hcond]
    exact hfil
  · simp only [RemoteObject.handle_failure]
    rw [if_neg hcond]
    by_cases hin : (RemoteObject.timeoutConfigured st.timeout && (c == none)) = true
    · rw [if_pos hin]
      exact List.mem_cons_of_mem _ hfil
    · rw [if_neg hin]
      exact List.mem_cons_of_mem _ hfil

/-- With retry-on-reconnect set, a pending entry is re-sent, with all its
fields, by the reconnect handler. -/
theorem pending_resent_on_reconnect (st : ROState) (d : Nat)
    (r : PendingRequest) (hmem : (d, r) ∈ st.pending_requests)
    (hr : st.retry_on_reconnect = true) (p : Nat) :
    ROAction.resend r.method r.args r.kwargs d r.call ∈
      (RemoteObject.handle_reconnect st p).2 := by
  simp only [RemoteObject.handle_reconnect, RemoteObject.retry]
  have hrr : ({ st with protocol := p } : ROState).retry_on_reconnect = true := hr
  rw [if_pos hrr]
  exact List.mem_map.mpr ⟨(d, r), hmem, rfl⟩

/-- C10: for a `RemoteObject` with no overall timeout and retry-on-reconnect
set, a transport failure stores the entry with its timeout handle left `none`
and emits nothing (no timer scheduled, no errback); no sequence of handler
invocations ever schedules a timer; every errback in any trace stems from an
externally injected `MethodCallError` failure, so the `RemoteObject` never
fails the caller Deferred on its own; and a stored entry survives responses
and failures for other Deferreds until a reconnect re-sends it with the same
fields. -/
theorem C10_no_timeout_retry_semantics (st : ROState)
    (ht : st.timeout = none) (hr : st.retry_on_reconnect = true) :
    (∀ msg m a k d,
      RemoteObject.handle_failure st (ROFailure.transport msg) m a k d none =
        ({ st with pending_requests :=
            RemoteObject.setRequest st.pending_requests d ⟨m, a, k, none⟩ },
         ([] : List ROAction)))
    ∧ (∀ ops act, act ∈ (st.runTrace ops).2 → act.isSchedule = false)
    ∧ (∀ ops d2 f2, ROAction.errback d2 f2 ∈ (st.runTrace ops).2 →
        f2.isMethodCallError = true ∧
        ∃ m a k c, ROOp.failureOp f2 m a k d2 c ∈ ops)
    ∧ (∀ d r, (d, r) ∈ st.pending_requests →
        (∀ resp d2 c,
          (d, r) ∈ (st.step (ROOp.responseOp resp d2 c)).1.pending_requests)
        ∧ (∀ f m a k d2 c, d2 ≠ d →
            (d, r) ∈ (st.step (ROOp.failureOp f m a k d2 c)).1.pending_requests)
        ∧ (∀ p, ROAction.resend r.method r.args r.kwargs d r.call ∈
            (st.step (ROOp.reconnectOp p)).2)) := by
  refine ⟨?_, ?_, ?_, ?_⟩
  · intro msg m a k d
    have hcond : ((ROFailure.transport msg).isMethodCallError ||
        (st.retry_on_reconnect == false)) = false := by
      simp [ROFailure.isMethodCallError, hr]
    have htc : RemoteObject.timeoutConfigured st.timeout = false := by
      rw [ht]
      rfl
    have hP : ¬((ROFailure.transport msg).isMethodCallError = true ∨
        st.retry_on_reconnect = false) := by
      simp [ROFailure.isMethodCallError, hr]
    simp [RemoteObject.handle_failure, hcond, hP, htc]
  · intro ops act hact
    exact runTrace_no_schedule ops st ht act hact
  · intro ops d2 f2 h
    exact runTrace_errback_from_ops ops st hr d2 f2 h
  · intro d r hmem
    refine ⟨fun resp d2 c => hmem, ?_, ?_⟩
    · intro f m a k d2 c hne
      exact pending_preserved_failure st d r hmem f m a k d2 c hne
    · intro p
      exact pending_resent_on_reconnect st d r hmem hr p

/-- C10 witness: a concrete no-timeout retrying proxy with one stored entry;
a fresh transport failure stores its entry with handle `none` and emits
nothing, and a reconnect re-sends the stored call. -/
theorem C10_witness :
    ({ protocol := 0, retry_on_reconnect := true, timeout := none,
       pending_requests := [(3, ⟨"ping", [], [], none⟩)],
       fresh_call := 0 } : ROState).timeout = none ∧
    RemoteObject.handle_failure
        { protocol := 0, retry_on_reconnect := true, timeout := none,
          pending_requests := [(3, ⟨"ping", [], [], none⟩)], fresh_call := 0 }
        (ROFailure.transport "lost") "add" [] [] 4 none =
      ({ protocol := 0, retry_on_reconnect := true, timeout := none,
         pending_requests :=
           [(4, ⟨"add", [], [], none⟩), (3, ⟨"ping", [], [], none⟩)],
         fresh_call := 0 }, []) ∧
    ROAction.resend "ping" [] [] 3 none ∈
      (ROState.step
        { protocol := 0, retry_on_reconnect := true, timeout := none,
          pending_requests := [(3, ⟨"ping", [], [], none⟩)], fresh_call := 0 }
        (ROOp.reconnectOp 9)).2 := by
  have h := C10_no_timeout_retry_semantics
    { protocol := 0, retry_on_reconnect := true, timeout := none,
      pending_requests := [(3, ⟨"ping", [], [], none⟩)], fresh_call := 0 }
    rfl rfl
  exact ⟨rfl, h.1 "lost" "add" [] [] 4,
    (h.2.2.2 3 ⟨"ping", [], [], none⟩ (by decide)).2.2 9⟩
